import Mathlib

/-!
Verification of the DCT reduction core (`DCTRedux.py`) against its
natural-language specification.

The embedding translates the Python source into Lean:

* a sample of a numpy array is `Samp := Option ℚ`: `some q` is a finite
  floating-point value (idealised as an exact rational, matching the spec's
  "within floating-point tolerance" reading), `none` is a non-finite value
  (IEEE NaN, as produced e.g. by `np.mean` of an empty array, or ±inf);
  arithmetic on `none` propagates `none` exactly as IEEE non-finite values
  propagate through numpy arithmetic;
* a 2-D numpy array is `Mat := List (List Samp)` (a list of rows);
* a `DataEnc` instance is `Frame`: `names`/`headers` are the provenance
  lists (`self.name`, `self.__header`), `prescan`/`active`/`postscan` are
  the region arrays (`self.__prescan`, `self.__image`, `self.__postscan`).
  Line 97 of the source, `self.__original = self.__image`, stores a
  *reference*, not a copy: `self.__original` and `self.__image` are the
  same numpy array object until `scale` rebinds `self.__image`.  The field
  `originalSep` is `none` while the two attributes alias one array, and
  `some o` once they are separate arrays; `Frame.original` reads the value
  of `self.__original` in either state.  `copy.deepcopy` (used by
  `__add__`/`__sub__`/`__div__`) preserves this aliasing through its memo
  dictionary, so the alias state is carried into combination results;
* Python exceptions escaping an operation are the `Except PyErr` error
  channel; `sys.exit()` calls in the constructor are the distinguished
  `InitOutcome.processExit` outcome.
-/

namespace DCTRedux

/-- Python exception classes that the modelled code can actually raise or
catch: `ValueError` (numpy shape mismatch, caught by the arithmetic magic
methods), `TypeError` (unsupported operand types, e.g. `0 + frame` inside
`sum`, or `/=` with no `__truediv__`), `AttributeError` (attribute access
or assignment failures), `NameError` (unbound name, e.g. `self` inside the
`avg` classmethod). -/
inductive PyErr
  | valueError
  | typeError
  | attributeError
  | nameError
  deriving DecidableEq

/-- One floating-point sample: `some q` a finite value, `none` a non-finite
value (NaN/±inf). -/
abbrev Samp := Option ℚ

/-- Addition of samples; a non-finite operand poisons the result, as in
IEEE arithmetic. -/
def Samp.add : Samp → Samp → Samp
  | some a, some b => some (a + b)
  | _, _ => none

/-- Subtraction of samples, with non-finite propagation. -/
def Samp.sub : Samp → Samp → Samp
  | some a, some b => some (a - b)
  | _, _ => none

/-- Division of samples.  Division by an exact zero yields a non-finite
value (numpy emits ±inf or NaN plus a RuntimeWarning, never an exception);
all non-finite results are collapsed to `none`. -/
def Samp.div : Samp → Samp → Samp
  | some a, some b => if b = 0 then none else some (a / b)
  | _, _ => none

/-- A 2-D numpy array as a list of rows. -/
abbrev Mat := List (List Samp)

/-- All samples of an array, row-major (what `np.mean` averages over). -/
def Mat.entries (m : Mat) : List Samp := m.foldr (fun r acc => r ++ acc) []

/-- Shape equality of two arrays: same row count and pairwise equal row
lengths.  This is the condition under which an element-wise in-place numpy
operation between them succeeds; on mismatch numpy raises `ValueError`
(broadcasting of degenerate shapes never arises here: all region arrays of
frames built by this program are full 2-D arrays). -/
def sameShape : Mat → Mat → Bool
  | [], [] => true
  | r :: a, s :: b => r.length == s.length && sameShape a b
  | _, _ => false

/-- Element-wise combination of two same-shape arrays. -/
def map2 (f : Samp → Samp → Samp) (a b : Mat) : Mat :=
  List.zipWith (List.zipWith f) a b

/-- An in-place element-wise numpy operation `a op= b`: succeeds with the
element-wise result when the shapes agree and raises `ValueError`
otherwise. -/
def npBinop (f : Samp → Samp → Samp) (a b : Mat) : Except PyErr Mat :=
  if sameShape a b then Except.ok (map2 f a b) else Except.error PyErr.valueError

/-- True when every sample of the array is finite. -/
def Mat.allFinite (m : Mat) : Bool := m.all fun r => r.all Option.isSome

/-- Subtract one scalar from every sample (`self.__image -= overscanMean`). -/
def Mat.subScalar (m : Mat) (s : Samp) : Mat :=
  m.map fun r => r.map fun x => Samp.sub x s

/-- The array is rectangular with the given row count and row length. -/
def Mat.isRect (m : Mat) (rows cols : Nat) : Bool :=
  m.length == rows && m.all fun r => r.length == cols

/-- Sample at row `i`, column `j`; out-of-range indices read as `none`. -/
def Mat.getE (m : Mat) (i j : Nat) : Samp := (m.getD i []).getD j none

/-- Sum of a list of samples, as `np.mean` accumulates it (a non-finite
sample poisons the sum). -/
def sampListSum (xs : List Samp) : Samp := xs.foldr Samp.add (some 0)

/-- The rational value of a list of finite samples' sum (spec-side reading
of "the mean of all samples"). -/
def sumQ (xs : List Samp) : ℚ := (xs.map fun x => x.getD 0).sum

/-- The value of `np.mean` on the flattened samples: NaN (`none`) on an
empty sample list (numpy emits a RuntimeWarning and returns NaN — it does
not raise), otherwise sum divided by count. -/
def npMean (xs : List Samp) : Samp :=
  if xs.length = 0 then none else (sampListSum xs).map fun s => s / (xs.length : ℚ)

/-- Numpy transpose (`np.transpose`) of a rectangular array. -/
def npTranspose (m : Mat) : Mat :=
  (List.range (m.headD []).length).map fun j => m.map fun r => r.getD j none

/-- The header keys that `DataEnc.__init__`, `width` and `height` read.
Remaining FITS keys (AIRMASS, DATE-OBS, …) are only echoed by accessors
the claims do not touch and are omitted from the model. -/
structure Header where
  NAXIS1 : Nat
  NAXIS2 : Nat
  PRESCAN : Nat
  POSTSCAN : Nat
  deriving DecidableEq

/-- A default header value, used only to model `headD`; every frame the
program builds satisfies the `len(headers) ≥ 1` invariant, so the default
is never observed. -/
def hdrDefault : Header := ⟨0, 0, 0, 0⟩

/-- The state of one `DataEnc` instance.  `originalSep = none` models the
state in which `self.__original` and `self.__image` are one numpy array
(the alias created at line 97); `originalSep = some o` models the state
after `scale` rebinds `self.__image`, where `o` is the separate array that
`self.__original` still references. -/
structure Frame where
  names : List String
  headers : List Header
  prescan : Mat
  active : Mat
  postscan : Mat
  originalSep : Option Mat
  deriving DecidableEq

/-- The value read through `self.__original`: the separate array when the
alias has been broken, otherwise the shared array that `self.__image` also
references. -/
def Frame.original (f : Frame) : Mat := f.originalSep.getD f.active

/-- The prescan region as sliced at line 89: the first PRESCAN rows of the
transposed data (so it is stored column-major: one row per detector
column, each of length NAXIS2). -/
def rawPrescan (h : Header) (arr : Mat) : Mat :=
  (npTranspose arr).take h.PRESCAN

/-- The active region as sliced at line 90: the middle rows of the
transposed data, transposed back (row-major: NAXIS2 rows of width
`NAXIS1 - PRESCAN - POSTSCAN`). -/
def rawActive (h : Header) (arr : Mat) : Mat :=
  npTranspose (((npTranspose arr).drop h.PRESCAN).take (h.NAXIS1 - h.POSTSCAN - h.PRESCAN))

/-- The postscan region as sliced at line 91 (stored column-major, like
the prescan). -/
def rawPostscan (h : Header) (arr : Mat) : Mat :=
  (npTranspose arr).drop (h.NAXIS1 - h.POSTSCAN)

/-- The scalar `np.mean(np.concatenate((self.prescan, self.postscan)))`
computed by `__correctImage`. -/
def overscanMean (pre post : Mat) : Samp := npMean (Mat.entries (pre ++ post))

/-- Method `__correctImage`: when `subtractOverscans` is set, subtract the scan
mean from every active sample; the `removeCosmicRays` branch of the source
is `pass` and alters nothing. -/
def correctImage (subtractOverscans : Bool) (pre post img : Mat) : Mat :=
  if subtractOverscans then Mat.subScalar img (overscanMean pre post) else img

/-- The body of `DataEnc.__init__` after a successful read: split the
transposed data into the three regions, correct the image, and leave
`self.__original` aliasing `self.__image` (line 97 assigns the reference,
not a copy, hence `originalSep := none`). -/
def DataEnc.construct (name : String) (h : Header) (arr : Mat)
    (subtractOverscans : Bool) (removeCosmicRays : Bool) : Frame :=
  { names := [name]
    headers := [h]
    prescan := rawPrescan h arr
    active := correctImage subtractOverscans (rawPrescan h arr) (rawPostscan h arr)
      (rawActive h arr)
    postscan := rawPostscan h arr
    originalSep := none }

/-- The `width` property: `NAXIS1 - PRESCAN - POSTSCAN` from the first
header, in Python integer arithmetic. -/
def Frame.width (f : Frame) : ℤ :=
  ((f.headers.headD hdrDefault).NAXIS1 : ℤ)
    - ((f.headers.headD hdrDefault).PRESCAN : ℤ)
    - ((f.headers.headD hdrDefault).POSTSCAN : ℤ)

/-- The `height` property: `NAXIS2` from the first header. -/
def Frame.height (f : Frame) : Nat := (f.headers.headD hdrDefault).NAXIS2

/-- The shared body of `__add__`/`__sub__`/`__div__`: deep-copy `self`
(preserving the image/original alias through the deepcopy memo), append
`other`'s FIRST name and header, then apply the in-place element-wise
operation to prescan, image, original and postscan in source order.  A
`ValueError` from any numpy step is caught and the method returns `None`
(modelled as `none`); the receiver and `other` are never mutated.  When
the copy's image and original are one array, the image step and the
original step both update that one array, so `other`'s active and original
arrays are BOTH folded into the result's active array. -/
def DataEnc.binop (f : Samp → Samp → Samp) (a b : Frame) : Option Frame :=
  let newNames := a.names ++ [b.names.headD ""]
  let newHeaders := a.headers ++ [b.headers.headD hdrDefault]
  match npBinop f a.prescan b.prescan with
  | Except.error _ => none
  | Except.ok pre =>
    match a.originalSep with
    | none =>
      match npBinop f a.active b.active with
      | Except.error _ => none
      | Except.ok x1 =>
        match npBinop f x1 (Frame.original b) with
        | Except.error _ => none
        | Except.ok x2 =>
          match npBinop f a.postscan b.postscan with
          | Except.error _ => none
          | Except.ok post =>
            some { names := newNames, headers := newHeaders, prescan := pre,
                   active := x2, postscan := post, originalSep := none }
    | some o =>
      match npBinop f a.active b.active with
      | Except.error _ => none
      | Except.ok img =>
        match npBinop f o (Frame.original b) with
        | Except.error _ => none
        | Except.ok o2 =>
          match npBinop f a.postscan b.postscan with
          | Except.error _ => none
          | Except.ok post =>
            some { names := newNames, headers := newHeaders, prescan := pre,
                   active := img, postscan := post, originalSep := some o2 }

/-- Magic method `__add__`. -/
def DataEnc.add (a b : Frame) : Option Frame := DataEnc.binop Samp.add a b

/-- Magic method `__sub__`. -/
def DataEnc.sub (a b : Frame) : Option Frame := DataEnc.binop Samp.sub a b

/-- Magic method `__div__`.  Note this is the Python 2 magic-method name: Python 3
resolves the `/` and `/=` operators through `__truediv__`/`__itruediv__`
and never calls `__div__`, so this method is dead code (see
`DataEnc.hasTruediv`). -/
def DataEnc.div (a b : Frame) : Option Frame := DataEnc.binop Samp.div a b

/-- The accumulator of Python's builtin `sum`, which starts from the int
`0`: after the first step the accumulator would be a frame, or `None` if
an `__add__` call swallowed a `ValueError`. -/
inductive SumAcc
  | intZero
  | pyNone
  | frame (f : Frame)
  deriving DecidableEq

/-- One step `acc = acc + item` of `sum`.  `int.__add__(DataEnc)` returns
`NotImplemented` and `DataEnc` defines no `__radd__`, so the very first
step (`0 + frame`) raises `TypeError`; likewise `None + frame` would. -/
def sumStep : SumAcc → Frame → Except PyErr SumAcc
  | SumAcc.intZero, _ => Except.error PyErr.typeError
  | SumAcc.pyNone, _ => Except.error PyErr.typeError
  | SumAcc.frame a, f =>
    Except.ok (match DataEnc.add a f with
      | some r => SumAcc.frame r
      | none => SumAcc.pyNone)

/-- Builtin `sum(args)` as evaluated in `DataEnc.avg`. -/
def pySum (args : List Frame) : Except PyErr SumAcc :=
  args.foldlM sumStep SumAcc.intZero

/-- Classmethod `DataEnc.avg`: `result = sum(args)` followed by four in-place region
divisions by `self.numbImagesCombined`.  For a non-empty argument list the
first `sum` step already raises `TypeError` (no `__radd__`).  For an empty
list `sum` returns the int `0`, and `result.__prescan` then raises
`AttributeError`.  Were a frame ever reached, `self` is an unbound name
inside this classmethod and `NameError` would be raised. -/
def DataEnc.avg (args : List Frame) : Except PyErr Frame :=
  match pySum args with
  | Except.error e => Except.error e
  | Except.ok SumAcc.intZero => Except.error PyErr.attributeError
  | Except.ok SumAcc.pyNone => Except.error PyErr.attributeError
  | Except.ok (SumAcc.frame _) => Except.error PyErr.nameError

/-- The state of an `Image` (science frame) instance: the inherited
`DataEnc` state plus the two correction flags set by `Image.__init__`. -/
structure ImageFrame where
  frame : Frame
  isBiasCorrected : Bool
  isFlatCorrected : Bool
  deriving DecidableEq

/-- Magic method `__sub__` evaluated with an `Image` receiver: `copy.deepcopy` copies
the whole instance, flags included, and the region arithmetic happens on
the inherited state. -/
def ImageFrame.sub (a : ImageFrame) (b : Frame) : Option ImageFrame :=
  (DataEnc.sub a.frame b).map fun fr => { a with frame := fr }

/-- The final value of the LOCAL variable `self` inside
`Image.subtractBias`: the augmented assignment `self -= biasFrame`
rebinds the local name to `self.__sub__(biasFrame)` (there is no
`__isub__`), and `self._isBiasCorrected = True` is then executed on that
rebound object.  When `__sub__` swallowed a `ValueError` and returned
`None`, the attribute assignment on `None` raises `AttributeError`. -/
def Image.subtractBiasLocal (s : ImageFrame) (bias : Frame) : Except PyErr ImageFrame :=
  match ImageFrame.sub s bias with
  | none => Except.error PyErr.attributeError
  | some s2 => Except.ok { s2 with isBiasCorrected := true }

/-- Method `Image.subtractBias` as the caller observes it: the method body only
rebinds its local `self` and mutates that local copy, then returns `None`;
any exception propagates, but on success the receiving instance is left
exactly as it was. -/
def Image.subtractBias (s : ImageFrame) (bias : Frame) : Except PyErr ImageFrame :=
  (Image.subtractBiasLocal s bias).map fun _ => s

/-- Whether the `DataEnc` class hierarchy defines `__truediv__` or
`__itruediv__`, the methods Python 3 dispatches `/` and `/=` to.  The
source defines only the Python 2 name `__div__` (line 226), so it does
not. -/
def DataEnc.hasTruediv : Bool := false

/-- The augmented assignment `self /= flatFrame`: Python 3 looks up
`__itruediv__` then `__truediv__`, finds neither on `DataEnc`, and raises
`TypeError`; `__div__` is never consulted. -/
def ImageFrame.itruediv (a : ImageFrame) (b : Frame) : Except PyErr (Option ImageFrame) :=
  if DataEnc.hasTruediv then
    Except.ok ((DataEnc.div a.frame b).map fun fr => { a with frame := fr })
  else Except.error PyErr.typeError

/-- The final value of the local `self` inside `Image.divideFlat`
(division step, then `self._isFlatCorrected = True` on the rebound
local).  The division step always raises `TypeError`. -/
def Image.divideFlatLocal (s : ImageFrame) (flat : Frame) : Except PyErr ImageFrame :=
  match ImageFrame.itruediv s flat with
  | Except.error e => Except.error e
  | Except.ok none => Except.error PyErr.attributeError
  | Except.ok (some s2) => Except.ok { s2 with isFlatCorrected := true }

/-- Method `Image.divideFlat` as the caller observes it: exceptions from the
body propagate; on (hypothetical) success the receiver would be returned
unchanged, for the same local-rebinding reason as `subtractBias`. -/
def Image.divideFlat (s : ImageFrame) (flat : Frame) : Except PyErr ImageFrame :=
  (Image.divideFlatLocal s flat).map fun _ => s

/-- The keyword arguments of `DataEnc.scale`. -/
structure ScaleParams where
  scale : String
  power : ℚ
  minCut : Option ℚ
  maxCut : Option ℚ
  deriving DecidableEq

/-- Method `DataEnc.scale`: `self.__image = vis.scale_image(self.__original, …)`.
The external library transform `vis.scale_image` is out of scope and is
passed in as `visScaleImage`.  The assignment rebinds `self.__image` to
the freshly computed array, so after the call `self.__original` holds its
old array separately (`originalSep := some (Frame.original f)`); nothing
else on the instance is touched. -/
def DataEnc.scaleOp (visScaleImage : ScaleParams → Mat → Mat) (p : ScaleParams)
    (f : Frame) : Frame :=
  { f with active := visScaleImage p (Frame.original f)
           originalSep := some (Frame.original f) }

/-- The outcome of the raw-frame reader collaborator (`fits.open`): a
header plus data array, or one of the two errors `DataEnc.__init__`
catches. -/
inductive ReadResult
  | okData (name : String) (h : Header) (arr : Mat)
  | fileNotFoundError
  | osError
  deriving DecidableEq

/-- What running `DataEnc.__init__` leads to: a live frame, or process
termination — the two `except` clauses at lines 99–105 print a message
and call `sys.exit()`. -/
inductive InitOutcome
  | frame (f : Frame)
  | processExit
  deriving DecidableEq

/-- Constructor `DataEnc.__init__` over the reader outcome. -/
def DataEnc.initFromRead (r : ReadResult) (subtractOverscans removeCosmicRays : Bool) :
    InitOutcome :=
  match r with
  | ReadResult.okData name h arr =>
    InitOutcome.frame (DataEnc.construct name h arr subtractOverscans removeCosmicRays)
  | ReadResult.fileNotFoundError => InitOutcome.processExit
  | ReadResult.osError => InitOutcome.processExit

/-- A Python `property` descriptor as seen by the attribute-assignment
protocol: it is a data descriptor, so assignment through it succeeds only
when a setter was supplied. -/
structure PyProperty where
  hasGetter : Bool
  hasSetter : Bool

/-- The `Flat.isBiasCorrected` property (lines 538–540): a getter and no
setter. -/
def Flat.isBiasCorrectedProperty : PyProperty := { hasGetter := true, hasSetter := false }

/-- Assignment through a property: `AttributeError` when the property has
no setter. -/
def PyProperty.setAttr (p : PyProperty) : Except PyErr Unit :=
  if p.hasSetter then Except.ok () else Except.error PyErr.attributeError

/-- The state a `Flat` instance would have if its constructor completed. -/
structure FlatFrame where
  frame : Frame
  biasFlag : Bool
  deriving DecidableEq

/-- Constructor `Flat.__init__` on a successfully read file: `super().__init__`
builds the `DataEnc` state and the class counter is bumped, then
`self.isBiasCorrected = False` assigns through the getter-only class
property, which raises `AttributeError` before the constructor can
return. -/
def Flat.init (name : String) (h : Header) (arr : Mat)
    (subtractOverscans removeCosmicRays : Bool) : Except PyErr FlatFrame :=
  let base := DataEnc.construct name h arr subtractOverscans removeCosmicRays
  match Flat.isBiasCorrectedProperty.setAttr with
  | Except.error e => Except.error e
  | Except.ok _ => Except.ok { frame := base, biasFlag := false }

/-- Modelled from the spec: the `OverscanCorrector` of spec §4.2, which
"must handle the case where both scan regions are empty (width 0) by
failing with `EmptyRegionError`".  This definition follows the spec's
words; the source has no `EmptyRegionError` (or any of the spec's error
taxonomy) and is compared against this definition. -/
inductive SpecErr
  | emptyRegionError
  deriving DecidableEq

/-- Modelled from the spec: overscan correction that fails with
`EmptyRegionError` when no scan samples exist, and otherwise subtracts
the scalar mean of all scan samples from every active sample. -/
def specOverscanCorrect (pre post img : Mat) : Except SpecErr Mat :=
  if (Mat.entries (pre ++ post)).length = 0 then Except.error SpecErr.emptyRegionError
  else Except.ok (Mat.subScalar img (overscanMean pre post))

/-- The overscan correction the code performs, on the same error channel
as the spec-side corrector for comparison: the numpy path raises nothing
— `np.mean` of an empty array emits a RuntimeWarning and returns NaN,
which then poisons every active sample. -/
def npOverscanCorrect (pre post img : Mat) : Except SpecErr Mat :=
  Except.ok (Mat.subScalar img (overscanMean pre post))

/-! ### Helper lemmas about samples, shapes and element-wise operations -/

theorem Samp.sub_none (x : Samp) : Samp.sub x none = none := by
  cases x <;> rfl

theorem Samp.none_sub (x : Samp) : Samp.sub none x = none := by
  cases x <;> rfl

theorem Samp.sub_add_cancel (x : Samp) (y : ℚ) :
    Samp.sub (Samp.add x (some y)) (some y) = x := by
  cases x <;> simp [Samp.add, Samp.sub]

theorem Samp.sub_sub_add_add_cancel (x : Samp) (y z : ℚ) :
    Samp.sub (Samp.sub (Samp.add (Samp.add x (some y)) (some z)) (some y)) (some z) = x := by
  cases x with
  | none => rfl
  | some a => simp [Samp.add, Samp.sub]; ring

theorem zipWith_sub_add_cancel_row :
    ∀ r s : List Samp, r.length = s.length → s.all Option.isSome = true →
      List.zipWith Samp.sub (List.zipWith Samp.add r s) s = r := by
  intro r
  induction r with
  | nil =>
    intro s h _
    cases s with
    | nil => rfl
    | cons y t => simp at h
  | cons x r ih =>
    intro s h hf
    cases s with
    | nil => simp at h
    | cons y t =>
      simp only [List.length_cons, Nat.add_right_cancel_iff] at h
      simp only [List.all_cons, Bool.and_eq_true] at hf
      obtain ⟨q, rfl⟩ := Option.isSome_iff_exists.mp hf.1
      simp [Samp.sub_add_cancel, ih t h hf.2]

theorem zipWith_double_cancel_row :
    ∀ r s t : List Samp, r.length = s.length → r.length = t.length →
      s.all Option.isSome = true → t.all Option.isSome = true →
      List.zipWith Samp.sub
        (List.zipWith Samp.sub
          (List.zipWith Samp.add (List.zipWith Samp.add r s) t) s) t = r := by
  intro r
  induction r with
  | nil =>
    intro s t hs ht _ _
    cases s with
    | nil => cases t with
      | nil => rfl
      | cons z u => simp at ht
    | cons y u => simp at hs
  | cons x r ih =>
    intro s t hs ht hfs hft
    cases s with
    | nil => simp at hs
    | cons y s' =>
      cases t with
      | nil => simp at ht
      | cons z t' =>
        simp only [List.length_cons, Nat.add_right_cancel_iff] at hs ht
        simp only [List.all_cons, Bool.and_eq_true] at hfs hft
        obtain ⟨qy, rfl⟩ := Option.isSome_iff_exists.mp hfs.1
        obtain ⟨qz, rfl⟩ := Option.isSome_iff_exists.mp hft.1
        simp [Samp.sub_sub_add_add_cancel, ih s' t' hs ht hfs.2 hft.2]

theorem mat_sub_add_cancel :
    ∀ a b : Mat, sameShape a b = true → Mat.allFinite b = true →
      map2 Samp.sub (map2 Samp.add a b) b = a := by
  intro a
  induction a with
  | nil =>
    intro b h _
    cases b with
    | nil => rfl
    | cons s bs => simp [sameShape] at h
  | cons r as ih =>
    intro b h hf
    cases b with
    | nil => simp [sameShape] at h
    | cons s bs =>
      simp only [sameShape, Bool.and_eq_true, beq_iff_eq] at h
      simp only [Mat.allFinite, List.all_cons, Bool.and_eq_true] at hf
      simp only [map2, List.zipWith]
      rw [zipWith_sub_add_cancel_row r s h.1 hf.1]
      have := ih bs h.2 hf.2
      simp only [map2] at this
      rw [this]

theorem mat_double_cancel :
    ∀ a b c : Mat, sameShape a b = true → sameShape a c = true →
      Mat.allFinite b = true → Mat.allFinite c = true →
      map2 Samp.sub (map2 Samp.sub (map2 Samp.add (map2 Samp.add a b) c) b) c = a := by
  intro a
  induction a with
  | nil =>
    intro b c hb hc _ _
    cases b with
    | nil => cases c with
      | nil => rfl
      | cons => simp [sameShape] at hc
    | cons => simp [sameShape] at hb
  | cons r as ih =>
    intro b c hb hc hfb hfc
    cases b with
    | nil => simp [sameShape] at hb
    | cons s bs =>
      cases c with
      | nil => simp [sameShape] at hc
      | cons t cs =>
        simp only [sameShape, Bool.and_eq_true, beq_iff_eq] at hb hc
        simp only [Mat.allFinite, List.all_cons, Bool.and_eq_true] at hfb hfc
        simp only [map2, List.zipWith]
        rw [zipWith_double_cancel_row r s t hb.1 hc.1 hfb.1 hfc.1]
        have := ih bs cs hb.2 hc.2 hfb.2 hfc.2
        simp only [map2] at this
        rw [this]

theorem sameShape_map2_left (f : Samp → Samp → Samp) :
    ∀ a b c : Mat, sameShape a b = true → sameShape (map2 f a b) c = sameShape a c := by
  intro a
  induction a with
  | nil =>
    intro b c h
    cases b with
    | nil => rfl
    | cons => simp [sameShape] at h
  | cons r as ih =>
    intro b c h
    cases b with
    | nil => simp [sameShape] at h
    | cons s bs =>
      simp only [sameShape, Bool.and_eq_true, beq_iff_eq] at h
      cases c with
      | nil => simp [map2, sameShape]
      | cons t cs =>
        simp only [map2, List.zipWith, sameShape, List.length_zipWith]
        rw [h.1, Nat.min_self]
        have := ih bs cs h.2
        simp only [map2] at this
        rw [this]

/-! ### Helper lemmas about rectangular shapes of the region split -/

theorem isRect_iff (m : Mat) (r c : Nat) :
    Mat.isRect m r c = true ↔ m.length = r ∧ ∀ row ∈ m, row.length = c := by
  simp [Mat.isRect, List.all_eq_true]

theorem isRect_npTranspose {m : Mat} {r c : Nat} (h : Mat.isRect m r c = true)
    (hr : 0 < r) : Mat.isRect (npTranspose m) c r = true := by
  rw [isRect_iff] at h ⊢
  obtain ⟨hlen, hrow⟩ := h
  have hhead : (m.headD []).length = c := by
    cases m with
    | nil => simp at hlen; omega
    | cons x xs => exact hrow x (by simp)
  refine ⟨?_, ?_⟩
  · simp only [npTranspose, List.length_map, List.length_range]
    exact hhead
  intro row hmem
  simp only [npTranspose, List.mem_map] at hmem
  obtain ⟨j, _, rfl⟩ := hmem
  simp [hlen]

theorem isRect_take {m : Mat} {r c : Nat} (k : Nat) (h : Mat.isRect m r c = true) :
    Mat.isRect (m.take k) (min k r) c = true := by
  rw [isRect_iff] at h ⊢
  exact ⟨by simp [h.1], fun row hm => h.2 row (List.mem_of_mem_take hm)⟩

theorem isRect_drop {m : Mat} {r c : Nat} (k : Nat) (h : Mat.isRect m r c = true) :
    Mat.isRect (m.drop k) (r - k) c = true := by
  rw [isRect_iff] at h ⊢
  exact ⟨by simp [h.1], fun row hm => h.2 row (List.mem_of_mem_drop hm)⟩

theorem isRect_subScalar {m : Mat} {r c : Nat} (s : Samp)
    (h : Mat.isRect m r c = true) : Mat.isRect (Mat.subScalar m s) r c = true := by
  rw [isRect_iff] at h ⊢
  refine ⟨by simp [Mat.subScalar, h.1], ?_⟩
  intro row hm
  simp only [Mat.subScalar, List.mem_map] at hm
  obtain ⟨row0, h0, rfl⟩ := hm
  simp [h.2 row0 h0]

/-! ### Helper lemmas about indexed access and the scan mean -/

theorem getD_map_of_default {α β : Type} (f : α → β) (l : List α) (i : Nat) (d : α) :
    (l.map f).getD i (f d) = f (l.getD i d) := by
  rw [List.getD_eq_getElem?_getD, List.getD_eq_getElem?_getD, List.getElem?_map]
  cases l[i]? <;> rfl

theorem subScalar_getE (m : Mat) (s : Samp) (i j : Nat) :
    Mat.getE (Mat.subScalar m s) i j = Samp.sub (Mat.getE m i j) s := by
  unfold Mat.getE Mat.subScalar
  have h1 := getD_map_of_default (fun r : List Samp => r.map fun x => Samp.sub x s) m i []
  simp only [List.map_nil] at h1
  rw [h1]
  have h2 := getD_map_of_default (fun x => Samp.sub x s) (m.getD i []) j none
  simp only [Samp.none_sub] at h2
  exact h2

theorem subScalar_none (m : Mat) :
    Mat.subScalar m none = m.map fun r => r.map fun _ => none := by
  simp [Mat.subScalar, Samp.sub_none]

theorem sampListSum_finite :
    ∀ xs : List Samp, xs.all Option.isSome = true → sampListSum xs = some (sumQ xs) := by
  intro xs
  induction xs with
  | nil => intro _; rfl
  | cons x t ih =>
    intro h
    simp only [List.all_cons, Bool.and_eq_true] at h
    obtain ⟨q, rfl⟩ := Option.isSome_iff_exists.mp h.1
    simp only [sampListSum, List.foldr] at ih ⊢
    rw [ih h.2]
    simp [Samp.add, sumQ]

/-! ### Concrete inputs used by witnesses, counterexamples and evaluations -/

/-- A minimal header: a 1×1 frame with no scan columns. -/
def hdr1 : Header := ⟨1, 1, 0, 0⟩

/-- A freshly constructed 1×1 science frame with active value 5 (the
image/original alias of construction intact, flags false). -/
def imgS : ImageFrame := ⟨⟨["sci"], [hdr1], [], [[some 5]], [], none⟩, false, false⟩

/-- A freshly constructed 1×1 bias frame with active value 2. -/
def biasB : Frame := ⟨["bias"], [hdr1], [], [[some 2]], [], none⟩

/-! ### Claims -/

/-- C1: the spec claims `subtractBias` mutates the receiving frame in
place (arrays subtracted, provenance appended, `biasCorrected` set, two
applications subtracting twice).  The code does none of this: the
augmented assignment `self -= biasFrame` only rebinds the local name
`self` to the fresh copy returned by `__sub__`, and
`self._isBiasCorrected = True` is executed on that discarded copy, so the
receiving instance is returned to the caller bit-for-bit unchanged.  This
theorem evaluates the code at the failing input: one and two applications
of `subtractBias` both leave the frame with its original active array
`[[5]]` and with `isBiasCorrected = false`, where the claim requires
active `[[1]]` (= 5 − 2·2) and the flag true after two applications. -/
theorem c1_subtractBias_is_noop :
    Image.subtractBias imgS biasB = Except.ok imgS ∧
    ((Image.subtractBias imgS biasB).bind fun s2 => Image.subtractBias s2 biasB)
      = Except.ok imgS ∧
    imgS.frame.active = [[some 5]] ∧
    imgS.isBiasCorrected = false := ⟨rfl, rfl, rfl, rfl⟩

/-- C2: for a frame built from a valid header over a rectangular
`NAXIS2 × NAXIS1` data array with `PRESCAN + POSTSCAN < NAXIS1` and a
positive row count, the `width` property is `NAXIS1 − PRESCAN − POSTSCAN`,
the `height` property is `NAXIS2`, and the three region arrays have the
claimed width×height extents: the prescan holds `PRESCAN` detector
columns of height `NAXIS2` (stored column-major, as the source slices the
transposed data), the active array is `NAXIS2` rows of width
`NAXIS1 − PRESCAN − POSTSCAN` (transposed back at line 90), and the
postscan holds `POSTSCAN` columns of height `NAXIS2`. -/
theorem c2_frame_geometry (name : String) (h : Header) (arr : Mat) (so rc : Bool)
    (hrect : Mat.isRect arr h.NAXIS2 h.NAXIS1 = true)
    (hscan : h.PRESCAN + h.POSTSCAN < h.NAXIS1)
    (hrows : 0 < h.NAXIS2) :
    Frame.width (DataEnc.construct name h arr so rc)
        = (h.NAXIS1 : ℤ) - (h.PRESCAN : ℤ) - (h.POSTSCAN : ℤ) ∧
    Frame.height (DataEnc.construct name h arr so rc) = h.NAXIS2 ∧
    Mat.isRect (DataEnc.construct name h arr so rc).prescan h.PRESCAN h.NAXIS2 = true ∧
    Mat.isRect (DataEnc.construct name h arr so rc).active h.NAXIS2
        (h.NAXIS1 - h.PRESCAN - h.POSTSCAN) = true ∧
    Mat.isRect (DataEnc.construct name h arr so rc).postscan h.POSTSCAN h.NAXIS2 = true := by
  have hdata : Mat.isRect (npTranspose arr) h.NAXIS1 h.NAXIS2 = true :=
    isRect_npTranspose hrect hrows
  have hpre : Mat.isRect (rawPrescan h arr) h.PRESCAN h.NAXIS2 = true := by
    have h1 := isRect_take h.PRESCAN hdata
    rwa [Nat.min_eq_left (by omega)] at h1
  have hpost : Mat.isRect (rawPostscan h arr) h.POSTSCAN h.NAXIS2 = true := by
    have h1 := isRect_drop (h.NAXIS1 - h.POSTSCAN) hdata
    rwa [Nat.sub_sub_self (by omega)] at h1
  have hmid : Mat.isRect
      (((npTranspose arr).drop h.PRESCAN).take (h.NAXIS1 - h.POSTSCAN - h.PRESCAN))
      (h.NAXIS1 - h.POSTSCAN - h.PRESCAN) h.NAXIS2 = true := by
    have h1 := isRect_take (h.NAXIS1 - h.POSTSCAN - h.PRESCAN) (isRect_drop h.PRESCAN hdata)
    rwa [Nat.min_eq_left (by omega)] at h1
  have hact : Mat.isRect (rawActive h arr) h.NAXIS2 (h.NAXIS1 - h.POSTSCAN - h.PRESCAN) = true :=
    isRect_npTranspose hmid (by omega)
  refine ⟨rfl, rfl, hpre, ?_, hpost⟩
  show Mat.isRect (correctImage so (rawPrescan h arr) (rawPostscan h arr) (rawActive h arr))
      h.NAXIS2 (h.NAXIS1 - h.PRESCAN - h.POSTSCAN) = true
  rw [Nat.sub_right_comm]
  cases so with
  | false => simpa [correctImage] using hact
  | true =>
    simp only [correctImage, if_true]
    exact isRect_subScalar _ hact

/-- The concrete scenario header of C2: NAXIS1 110, NAXIS2 50, PRESCAN 5,
POSTSCAN 5. -/
def hdrC2 : Header := ⟨110, 50, 5, 5⟩

/-- A rectangular 50×110 raw data array for the C2 scenario. -/
def arrC2 : Mat := List.replicate 50 (List.replicate 110 (some 0))

/-- C2 witness: the scenario frame has width 100, height 50, and region
extents 5×50, 100×50 (as 50 rows of 100), 5×50. -/
theorem c2_frame_geometry_witness :
    (Mat.isRect arrC2 hdrC2.NAXIS2 hdrC2.NAXIS1 = true ∧
     hdrC2.PRESCAN + hdrC2.POSTSCAN < hdrC2.NAXIS1 ∧ 0 < hdrC2.NAXIS2) ∧
    Frame.width (DataEnc.construct "raw" hdrC2 arrC2 true true) = 100 ∧
    Frame.height (DataEnc.construct "raw" hdrC2 arrC2 true true) = 50 ∧
    Mat.isRect (DataEnc.construct "raw" hdrC2 arrC2 true true).prescan 5 50 = true ∧
    Mat.isRect (DataEnc.construct "raw" hdrC2 arrC2 true true).active 50 100 = true ∧
    Mat.isRect (DataEnc.construct "raw" hdrC2 arrC2 true true).postscan 5 50 = true := by
  have hmain := c2_frame_geometry "raw" hdrC2 arrC2 true true (by decide) (by decide) (by decide)
  obtain ⟨hw, hh, hp, ha, hq⟩ := hmain
  refine ⟨⟨by decide, by decide, by decide⟩, ?_, hh, hp, ha, hq⟩
  rw [hw]; decide

/-- C3 (amended): when overscan subtraction is enabled at construction,
the correction computes the single scalar `np.mean` of all samples of the
concatenated prescan and postscan regions — equal, for a non-empty
all-finite sample set, to their sum divided by their count — and
subtracts that scalar from every sample of the active region.  When both
scan regions contribute no samples, no error is raised (the source has no
`EmptyRegionError`): the mean is NaN and every active sample becomes NaN,
and the correction still returns normally. -/
theorem c3_overscan_correction (name : String) (h : Header) (arr : Mat) (rc : Bool) :
    (Mat.entries (rawPrescan h arr ++ rawPostscan h arr) ≠ [] →
      (Mat.entries (rawPrescan h arr ++ rawPostscan h arr)).all Option.isSome = true →
      overscanMean (rawPrescan h arr) (rawPostscan h arr)
        = some (sumQ (Mat.entries (rawPrescan h arr ++ rawPostscan h arr))
            / ((Mat.entries (rawPrescan h arr ++ rawPostscan h arr)).length : ℚ))) ∧
    (∀ i j : Nat, Mat.getE (DataEnc.construct name h arr true rc).active i j
        = Samp.sub (Mat.getE (rawActive h arr) i j)
            (overscanMean (rawPrescan h arr) (rawPostscan h arr))) ∧
    (Mat.entries (rawPrescan h arr ++ rawPostscan h arr) = [] →
      (DataEnc.construct name h arr true rc).active
          = (rawActive h arr).map (fun r => r.map fun _ => none) ∧
      npOverscanCorrect (rawPrescan h arr) (rawPostscan h arr) (rawActive h arr)
          = Except.ok ((rawActive h arr).map fun r => r.map fun _ => none)) := by
  refine ⟨?_, ?_, ?_⟩
  · intro hne hfin
    unfold overscanMean npMean
    rw [if_neg (by simpa using hne), sampListSum_finite _ hfin]
    rfl
  · intro i j
    show Mat.getE (correctImage true (rawPrescan h arr) (rawPostscan h arr)
        (rawActive h arr)) i j = _
    rw [correctImage, if_pos rfl, subScalar_getE]
  · intro hemp
    have hmean : overscanMean (rawPrescan h arr) (rawPostscan h arr) = none := by
      unfold overscanMean npMean
      rw [if_pos (by simp [hemp])]
    constructor
    · show correctImage true (rawPrescan h arr) (rawPostscan h arr) (rawActive h arr) = _
      rw [correctImage, if_pos rfl, hmean, subScalar_none]
    · unfold npOverscanCorrect
      rw [hmean, subScalar_none]

/-- The header of the C3 witness scenario: one row, three columns, one
prescan and one postscan column. -/
def hdrW3 : Header := ⟨3, 1, 1, 1⟩

/-- The raw data of the C3 witness scenario: samples 2 | 4 | 6, so the
scan samples are 2 and 6 and the single active sample is 4. -/
def arrW3 : Mat := [[some 2, some 4, some 6]]

/-- C3 witness: the witness scenario has non-empty, all-finite scan
regions, and the correction subtracts their mean from the (single) active
sample. -/
theorem c3_overscan_correction_witness :
    (Mat.entries (rawPrescan hdrW3 arrW3 ++ rawPostscan hdrW3 arrW3) ≠ [] ∧
     (Mat.entries (rawPrescan hdrW3 arrW3 ++ rawPostscan hdrW3 arrW3)).all Option.isSome
        = true) ∧
    overscanMean (rawPrescan hdrW3 arrW3) (rawPostscan hdrW3 arrW3)
      = some (sumQ (Mat.entries (rawPrescan hdrW3 arrW3 ++ rawPostscan hdrW3 arrW3))
          / ((Mat.entries (rawPrescan hdrW3 arrW3 ++ rawPostscan hdrW3 arrW3)).length : ℚ)) ∧
    Mat.getE (DataEnc.construct "w" hdrW3 arrW3 true true).active 0 0
      = Samp.sub (Mat.getE (rawActive hdrW3 arrW3) 0 0)
          (overscanMean (rawPrescan hdrW3 arrW3) (rawPostscan hdrW3 arrW3)) :=
  ⟨⟨by decide, by decide⟩,
   (c3_overscan_correction "w" hdrW3 arrW3 true).1 (by decide) (by decide),
   (c3_overscan_correction "w" hdrW3 arrW3 true).2.1 0 0⟩

/-- The header of the C3 counterexample: a single column that is entirely
active, so both scan regions are empty. -/
def hdrE3 : Header := ⟨1, 1, 0, 0⟩

/-- C3 counterexample: with both scan regions empty and overscan
correction requested, the claim says the operation fails with
`EmptyRegionError`; the code instead completes normally — the prescan and
postscan are empty, construction returns a frame whose every active
sample is NaN, and the code-side correction outcome (a normal `ok`
result) differs from the spec-side corrector, which is the one that
fails with `EmptyRegionError` at this input. -/
theorem c3_overscan_correction_counterexample :
    rawPrescan hdrE3 [[some 3]] = [] ∧
    rawPostscan hdrE3 [[some 3]] = [] ∧
    (DataEnc.construct "e" hdrE3 [[some 3]] true true).active = [[none]] ∧
    npOverscanCorrect [] [] [[some 3]] = Except.ok [[none]] ∧
    specOverscanCorrect [] [] [[some 3]] = Except.error SpecErr.emptyRegionError ∧
    npOverscanCorrect [] [] [[some 3]] ≠ specOverscanCorrect [] [] [[some 3]] :=
  ⟨rfl, rfl, rfl, rfl, rfl, fun hcontra => Except.noConfusion hcontra⟩

/-- A fresh 1×1 single-constituent frame with active sample 1. -/
def frA : Frame := ⟨["s1"], [hdr1], [], [[some 1]], [], none⟩

/-- A fresh 1×1 single-constituent frame with active sample 10. -/
def frB : Frame := ⟨["s2"], [hdr1], [], [[some 10]], [], none⟩

/-- C4: the spec claims `combine(A, B, ADD)` applies the element-wise
operation independently per region and concatenates full provenance.  The
names/headers part of the concrete scenario holds
(`names = [S1.name, S2.name]`, two headers), and operands are never
mutated (the method works on a deep copy) — but the element-wise part is
false for freshly constructed frames: because line 97 made
`self.__original` an alias of `self.__image` (and `deepcopy` preserves
the alias in the copy), the statements `result.__image += other.__image`
and `result.__original += other.__original` update the SAME array, so the
result's active sample is `1 + 10 + 10 = 21`, not the element-wise sum
`11` the claim requires.  This theorem evaluates the code at the failing
input. -/
theorem c4_add_aliased_double_applies :
    (DataEnc.add frA frB).map (fun r => (r.names, r.headers.length)) = some (["s1", "s2"], 2) ∧
    (DataEnc.add frA frB).map Frame.active = some [[some 21]] ∧
    (DataEnc.add frA frB).map Frame.active ≠ some [[some 11]] := by
  have h0 : (DataEnc.add frA frB).map Frame.active
      = some [[some ((1 : ℚ) + 10 + 10)]] := rfl
  have h1 : ((1 : ℚ) + 10 + 10) = 21 := by norm_num
  refine ⟨rfl, by rw [h0, h1], ?_⟩
  rw [h0, h1]
  intro hcontra
  have h2 : (21 : ℚ) = 11 := by
    have h3 := Option.some.inj hcontra
    have h4 := List.head_eq_of_cons_eq h3
    have h5 := List.head_eq_of_cons_eq h4
    exact Option.some.inj h5
  norm_num at h2

/-- C5: the round-trip law.  For frames with matching region geometry
and a finite-valued second operand, `combine(A, B, ADD)` followed by
`combine(result, B, SUBTRACT)` restores A's active, prescan and postscan
arrays exactly (the model's rationals idealise "within floating-point
tolerance").  This holds in every alias state: when A's original aliases
its active array, `__add__` folds B's active and original arrays both
into the result's active array, and `__sub__` then removes both again. -/
theorem c5_round_trip (a b : Frame)
    (hPre : sameShape a.prescan b.prescan = true)
    (hAct : sameShape a.active b.active = true)
    (hActO : sameShape a.active (Frame.original b) = true)
    (hOO : sameShape (Frame.original a) (Frame.original b) = true)
    (hPost : sameShape a.postscan b.postscan = true)
    (fPre : Mat.allFinite b.prescan = true)
    (fAct : Mat.allFinite b.active = true)
    (fO : Mat.allFinite (Frame.original b) = true)
    (fPost : Mat.allFinite b.postscan = true) :
    ∃ r1 r2, DataEnc.add a b = some r1 ∧ DataEnc.sub r1 b = some r2 ∧
      r2.active = a.active ∧ r2.prescan = a.prescan ∧ r2.postscan = a.postscan := by
  have hPre2 : sameShape (map2 Samp.add a.prescan b.prescan) b.prescan = true := by
    rw [sameShape_map2_left Samp.add _ _ _ hPre]; exact hPre
  have hPost2 : sameShape (map2 Samp.add a.postscan b.postscan) b.postscan = true := by
    rw [sameShape_map2_left Samp.add _ _ _ hPost]; exact hPost
  cases haO : a.originalSep with
  | none =>
    have hOrigA : Frame.original a = a.active := by
      unfold Frame.original; rw [haO]; rfl
    have hA1 : sameShape (map2 Samp.add a.active b.active) (Frame.original b) = true := by
      rw [sameShape_map2_left Samp.add _ _ _ hAct]; exact hActO
    have hA2 : sameShape (map2 Samp.add (map2 Samp.add a.active b.active) (Frame.original b))
        b.active = true := by
      rw [sameShape_map2_left Samp.add _ _ _ hA1, sameShape_map2_left Samp.add _ _ _ hAct]
      exact hAct
    have hA3 : sameShape (map2 Samp.sub
        (map2 Samp.add (map2 Samp.add a.active b.active) (Frame.original b)) b.active)
        (Frame.original b) = true := by
      rw [sameShape_map2_left Samp.sub _ _ _ hA2, sameShape_map2_left Samp.add _ _ _ hA1,
        sameShape_map2_left Samp.add _ _ _ hAct]
      exact hActO
    have e1 : DataEnc.add a b = some
        ⟨a.names ++ [b.names.headD ""], a.headers ++ [b.headers.headD hdrDefault],
         map2 Samp.add a.prescan b.prescan,
         map2 Samp.add (map2 Samp.add a.active b.active) (Frame.original b),
         map2 Samp.add a.postscan b.postscan, none⟩ := by
      show DataEnc.binop Samp.add a b = _
      rw [DataEnc.binop]
      simp only [npBinop, hPre, hAct, hA1, hPost, if_true, haO]
    have e2 : DataEnc.sub
        (⟨a.names ++ [b.names.headD ""], a.headers ++ [b.headers.headD hdrDefault],
          map2 Samp.add a.prescan b.prescan,
          map2 Samp.add (map2 Samp.add a.active b.active) (Frame.original b),
          map2 Samp.add a.postscan b.postscan, none⟩ : Frame) b = some
        ⟨(a.names ++ [b.names.headD ""]) ++ [b.names.headD ""],
         (a.headers ++ [b.headers.headD hdrDefault]) ++ [b.headers.headD hdrDefault],
         map2 Samp.sub (map2 Samp.add a.prescan b.prescan) b.prescan,
         map2 Samp.sub (map2 Samp.sub
           (map2 Samp.add (map2 Samp.add a.active b.active) (Frame.original b)) b.active)
           (Frame.original b),
         map2 Samp.sub (map2 Samp.add a.postscan b.postscan) b.postscan, none⟩ := by
      show DataEnc.binop Samp.sub _ b = _
      rw [DataEnc.binop]
      simp only [npBinop, hPre2, hA2, hA3, hPost2, if_true]
    exact ⟨_, _, e1, e2,
      mat_double_cancel a.active b.active (Frame.original b) hAct hActO fAct fO,
      mat_sub_add_cancel a.prescan b.prescan hPre fPre,
      mat_sub_add_cancel a.postscan b.postscan hPost fPost⟩
  | some o =>
    have hOrigA : Frame.original a = o := by
      unfold Frame.original; rw [haO]; rfl
    have hO1 : sameShape o (Frame.original b) = true := by rw [← hOrigA]; exact hOO
    have hAct2 : sameShape (map2 Samp.add a.active b.active) b.active = true := by
      rw [sameShape_map2_left Samp.add _ _ _ hAct]; exact hAct
    have hO2 : sameShape (map2 Samp.add o (Frame.original b)) (Frame.original b) = true := by
      rw [sameShape_map2_left Samp.add _ _ _ hO1]; exact hO1
    have e1 : DataEnc.add a b = some
        ⟨a.names ++ [b.names.headD ""], a.headers ++ [b.headers.headD hdrDefault],
         map2 Samp.add a.prescan b.prescan,
         map2 Samp.add a.active b.active,
         map2 Samp.add a.postscan b.postscan,
         some (map2 Samp.add o (Frame.original b))⟩ := by
      show DataEnc.binop Samp.add a b = _
      rw [DataEnc.binop]
      simp only [npBinop, hPre, hAct, hO1, hPost, if_true, haO]
    have e2 : DataEnc.sub
        (⟨a.names ++ [b.names.headD ""], a.headers ++ [b.headers.headD hdrDefault],
          map2 Samp.add a.prescan b.prescan,
          map2 Samp.add a.active b.active,
          map2 Samp.add a.postscan b.postscan,
          some (map2 Samp.add o (Frame.original b))⟩ : Frame) b = some
        ⟨(a.names ++ [b.names.headD ""]) ++ [b.names.headD ""],
         (a.headers ++ [b.headers.headD hdrDefault]) ++ [b.headers.headD hdrDefault],
         map2 Samp.sub (map2 Samp.add a.prescan b.prescan) b.prescan,
         map2 Samp.sub (map2 Samp.add a.active b.active) b.active,
         map2 Samp.sub (map2 Samp.add a.postscan b.postscan) b.postscan,
         some (map2 Samp.sub (map2 Samp.add o (Frame.original b)) (Frame.original b))⟩ := by
      show DataEnc.binop Samp.sub _ b = _
      rw [DataEnc.binop]
      simp only [npBinop, hPre2, hAct2, hO2, hPost2, if_true]
    exact ⟨_, _, e1, e2,
      mat_sub_add_cancel a.active b.active hAct fAct,
      mat_sub_add_cancel a.prescan b.prescan hPre fPre,
      mat_sub_add_cancel a.postscan b.postscan hPost fPost⟩

/-- A fresh 1×1 frame with active sample 7 for the C5 witness. -/
def frC5A : Frame := ⟨["a"], [hdr1], [], [[some 7]], [], none⟩

/-- A fresh 1×1 frame with active sample 3 for the C5 witness. -/
def frC5B : Frame := ⟨["b"], [hdr1], [], [[some 3]], [], none⟩

/-- C5 witness: two concrete matching finite frames satisfy every
hypothesis and the round trip restores the first frame's arrays. -/
theorem c5_round_trip_witness :
    (sameShape frC5A.prescan frC5B.prescan = true ∧
     sameShape frC5A.active frC5B.active = true ∧
     sameShape frC5A.active (Frame.original frC5B) = true ∧
     sameShape (Frame.original frC5A) (Frame.original frC5B) = true ∧
     sameShape frC5A.postscan frC5B.postscan = true ∧
     Mat.allFinite frC5B.prescan = true ∧
     Mat.allFinite frC5B.active = true ∧
     Mat.allFinite (Frame.original frC5B) = true ∧
     Mat.allFinite frC5B.postscan = true) ∧
    (∃ r1 r2, DataEnc.add frC5A frC5B = some r1 ∧ DataEnc.sub r1 frC5B = some r2 ∧
      r2.active = frC5A.active ∧ r2.prescan = frC5A.prescan ∧
      r2.postscan = frC5A.postscan) :=
  ⟨⟨by decide, by decide, by decide, by decide, by decide, by decide, by decide,
    by decide, by decide⟩,
   c5_round_trip frC5A frC5B (by decide) (by decide) (by decide) (by decide) (by decide)
     (by decide) (by decide) (by decide) (by decide)⟩

/-- C6: the spec claims `average` sums the frames and divides every
region by the count, failing with `EmptyInputError` only when the input
is empty.  The code's `avg` can never produce a frame at all: Python's
builtin `sum` starts from the int `0`, and `0 + frame` raises `TypeError`
because `int.__add__` returns `NotImplemented` and `DataEnc` defines no
`__radd__`; on an empty input `sum` returns `0` and the following
`result.__prescan /= …` raises `AttributeError` on the int (and even on a
frame the division lines would raise `NameError`, since `self` is unbound
inside the classmethod).  This theorem evaluates the code on every input:
`avg` always raises, with `TypeError` in particular at the failing input
`avg(A)`. -/
theorem c6_avg_always_raises (args : List Frame) :
    DataEnc.avg args = Except.error
      (match args with
       | [] => PyErr.attributeError
       | _ :: _ => PyErr.typeError) := by
  cases args with
  | nil => rfl
  | cons a t => rfl

/-- C7 (amended): `divideFlat` can never perform the division: the class
defines only the Python 2 method `__div__`, which Python 3's `/=`
operator never consults (it looks up `__itruediv__` then `__truediv__`),
so every call raises `TypeError` before any sample is read or written and
before `_isFlatCorrected` could be set — regardless of whether the flat
contains zero samples.  The all-or-nothing half of the claim holds
vacuously; the `DivisionByZeroError` policy does not exist in the
program. -/
theorem c7_divideFlat_always_typeError (s : ImageFrame) (flat : Frame) :
    Image.divideFlat s flat = Except.error PyErr.typeError := rfl

/-- A 1×1 flat frame whose only active sample is 2 — no zero divisor. -/
def flatGood : Frame := ⟨["flat"], [hdr1], [], [[some 2]], [], none⟩

/-- A 1×1 flat frame whose only active sample is exactly 0. -/
def flatZero : Frame := ⟨["flat0"], [hdr1], [], [[some 0]], [], none⟩

/-- C7 counterexample: at a flat with no zero sample the claim requires
`divideFlat` to succeed (divide in place and set `flatCorrected`), and at
a flat with a zero sample it requires a `DivisionByZeroError`; the code
raises `TypeError` in both cases and never returns success. -/
theorem c7_divideFlat_counterexample :
    (∀ x ∈ Mat.entries flatGood.active, x ≠ some 0) ∧
    Image.divideFlat imgS flatGood = Except.error PyErr.typeError ∧
    (∀ s2 : ImageFrame, Image.divideFlat imgS flatGood ≠ Except.ok s2) ∧
    Image.divideFlat imgS flatZero = Except.error PyErr.typeError := by
  refine ⟨?_, rfl, ?_, rfl⟩
  · intro x hx
    simp only [flatGood, Mat.entries, List.foldr, List.append_nil, List.mem_cons,
      List.not_mem_nil, or_false] at hx
    subst hx
    intro hcontra
    have h2 : (2 : ℚ) = 0 := Option.some.inj hcontra
    norm_num at h2
  · intro s2 hcontra
    exact Except.noConfusion hcontra

/-- C8 (amended): the six error types of the spec's taxonomy do not exist
in the program, and its propagation policy is not implemented: the
constructor catches `FileNotFoundError`/`OSError`, prints a message and
terminates the whole process via `sys.exit()`, and the arithmetic magic
methods catch the `ValueError` of a shape mismatch, print a message and
return `None` — the caller receives a non-failure result and no
exception. -/
theorem c8_errors_swallowed_or_exit (so rc : Bool) (a b : Frame)
    (hmis : sameShape a.prescan b.prescan = false) :
    DataEnc.initFromRead ReadResult.fileNotFoundError so rc = InitOutcome.processExit ∧
    DataEnc.initFromRead ReadResult.osError so rc = InitOutcome.processExit ∧
    DataEnc.add a b = none ∧
    DataEnc.sub a b = none := by
  refine ⟨rfl, rfl, ?_, ?_⟩ <;>
  · show DataEnc.binop _ a b = none
    rw [DataEnc.binop]
    simp [npBinop, hmis]

/-- A frame whose prescan has one column, for the C8 shape mismatch. -/
def frMisA : Frame := ⟨["a"], [⟨2, 1, 1, 0⟩], [[some 0]], [[some 1]], [], none⟩

/-- A frame whose prescan is empty, mismatching `frMisA`. -/
def frMisB : Frame := ⟨["b"], [hdr1], [], [[some 1]], [], none⟩

/-- C8 witness: a concrete mismatched pair of frames satisfies the
mismatch hypothesis, and the constructor outcomes and swallowed results
are as stated. -/
theorem c8_errors_swallowed_or_exit_witness :
    sameShape frMisA.prescan frMisB.prescan = false ∧
    (DataEnc.initFromRead ReadResult.fileNotFoundError true true = InitOutcome.processExit ∧
     DataEnc.initFromRead ReadResult.osError true true = InitOutcome.processExit ∧
     DataEnc.add frMisA frMisB = none ∧
     DataEnc.sub frMisA frMisB = none) :=
  ⟨by decide, c8_errors_swallowed_or_exit true true frMisA frMisB (by decide)⟩

/-- C8 counterexample: at a concrete invalid input the claim fails both
ways — adding two frames of mismatched prescan shape returns the
non-failure value `None` instead of surfacing a typed failure, and a
missing file makes the core terminate the process rather than report to
the caller. -/
theorem c8_counterexample :
    DataEnc.add frMisA frMisB = none ∧
    DataEnc.initFromRead ReadResult.fileNotFoundError true true = InitOutcome.processExit :=
  ⟨rfl, rfl⟩

/-- C9: `original` and re-scaling.  `scale` recomputes the active array
by applying the (external) stretch transform to the array read through
`self.__original`, touches neither scan region nor provenance, leaves the
value of `original` unchanged, and a second call with other parameters
fully overwrites the first (no compounding).  At construction `original`
is exactly the corrected active array (line 97 stores the reference
immediately after `__correctImage`). -/
theorem c9_rescale_from_original (V : ScaleParams → Mat → Mat) (p q : ScaleParams)
    (f : Frame) (name : String) (h : Header) (arr : Mat) (so rc : Bool) :
    (DataEnc.scaleOp V p f).active = V p (Frame.original f) ∧
    Frame.original (DataEnc.scaleOp V p f) = Frame.original f ∧
    (DataEnc.scaleOp V p f).prescan = f.prescan ∧
    (DataEnc.scaleOp V p f).postscan = f.postscan ∧
    (DataEnc.scaleOp V p f).names = f.names ∧
    (DataEnc.scaleOp V p f).headers = f.headers ∧
    DataEnc.scaleOp V q (DataEnc.scaleOp V p f) = DataEnc.scaleOp V q f ∧
    Frame.original (DataEnc.construct name h arr so rc)
      = (DataEnc.construct name h arr so rc).active :=
  ⟨rfl, rfl, rfl, rfl, rfl, rfl, rfl, rfl⟩

/-- C10: constructing a `Flat` always raises: after the inherited
constructor succeeds, `self.isBiasCorrected = False` assigns through the
class's getter-only `isBiasCorrected` property, and Python's data
descriptor protocol raises `AttributeError` for a property without a
setter — so no `Flat` instance is ever produced, for every input and
every flag configuration. -/
theorem c10_flat_constructor_always_raises (name : String) (h : Header) (arr : Mat)
    (so rc : Bool) :
    Flat.init name h arr so rc = Except.error PyErr.attributeError := rfl

end DCTRedux
